import Mathlib

/-
Verification of the kikidoko crawler's reconciliation core: the entity-match
decision rule, text/classification utilities, dedupe-key hashing, search-token
generation, the normalizer, the Firestore upsert protocol and the batch
runner's retry loop.  Python sources are shallowly embedded: machine integers
become Int/Nat, dicts become association lists, and the document store's
effects become explicit state passing.
-/

namespace Kikidoko

/-! ## Entity matcher (eqnet_backfill.py): scored candidates and the decision -/

/-- A scored registry candidate, as built by score_candidate in
eqnet_backfill.py: id, display fields, an integer score 0..100 and the
name_exact / org_match flags. -/
structure ScoredCandidate where
  id : String := ""
  name : String := ""
  affiliation : String := ""
  url : String := ""
  score : Int := 0
  name_exact : Bool := false
  org_match : Bool := false
deriving DecidableEq, Repr

/-- decide_match from eqnet_backfill.py: the runner-up score defaults to -1
when only one candidate exists, and the rules fire in order high / high /
medium, else no match. -/
def decide_match (scored_candidates : List ScoredCandidate) : String × String :=
  match scored_candidates with
  | [] => ("", "none")
  | top :: rest =>
    let second_score : Int :=
      match rest with
      | second :: _ => second.score
      | [] => -1
    let margin : Int := top.score - second_score
    if top.name_exact ∧ top.org_match ∧ top.score ≥ 88 then (top.id, "high")
    else if top.score ≥ 92 ∧ margin ≥ 6 then (top.id, "high")
    else if top.score ≥ 82 ∧ margin ≥ 10 then (top.id, "medium")
    else ("", "none")

/-- The runner-up score decide_match works with: the second element's score,
or -1 when fewer than two candidates are present. -/
def secondScore : List ScoredCandidate → Int
  | _ :: second :: _ => second.score
  | _ => -1

/-- Boolean test that a candidate list is sorted by descending score. -/
def sortedByScoreDesc : List ScoredCandidate → Bool
  | [] => true
  | [_] => true
  | a :: b :: rest => (b.score ≤ a.score) && sortedByScoreDesc (b :: rest)

/-- The spec's high-confidence condition, over the top candidate and the
margin. -/
def highCond (top : ScoredCandidate) (margin : Int) : Prop :=
  (top.name_exact ∧ top.org_match ∧ top.score ≥ 88) ∨ (top.score ≥ 92 ∧ margin ≥ 6)

/-- The spec's medium-confidence condition: neither high rule fires and the
score/margin thresholds hold. -/
def mediumCond (top : ScoredCandidate) (margin : Int) : Prop :=
  ¬ highCond top margin ∧ top.score ≥ 82 ∧ margin ≥ 10

instance (top : ScoredCandidate) (margin : Int) : Decidable (highCond top margin) := by
  unfold highCond; infer_instance

instance (top : ScoredCandidate) (margin : Int) : Decidable (mediumCond top margin) := by
  unfold mediumCond; infer_instance

/-- C2: for every non-empty score-descending candidate list, decide_match
returns high iff (top.name_exact AND top.org_match AND top.score >= 88) OR
(top.score >= 92 AND margin >= 6), medium iff neither high rule fires and
top.score >= 82 AND margin >= 10, and otherwise no match with empty id; a top
score 95 with name_exact and org_match over a runner-up 80 yields high with a
non-empty id, and a top 85 over a runner-up 84 yields no match. -/
theorem decide_match_confidence_rules :
    (∀ cs top, sortedByScoreDesc cs = true → cs.head? = some top →
      (((decide_match cs).2 = "high") ↔ highCond top (top.score - secondScore cs))
      ∧ (((decide_match cs).2 = "medium") ↔ mediumCond top (top.score - secondScore cs))
      ∧ ((¬ highCond top (top.score - secondScore cs)
            ∧ ¬ mediumCond top (top.score - secondScore cs)) →
          decide_match cs = ("", "none"))
      ∧ ((highCond top (top.score - secondScore cs)
            ∨ mediumCond top (top.score - secondScore cs)) →
          (decide_match cs).1 = top.id))
    ∧ (∀ i, ¬ i = "" →
        decide_match [{ id := i, score := 95, name_exact := true, org_match := true },
          { score := 80 }] = (i, "high")
        ∧ ¬ (decide_match [{ id := i, score := 95, name_exact := true, org_match := true },
          { score := 80 }]).1 = "")
    ∧ decide_match [{ id := "a1", score := 85 }, { id := "a2", score := 84 }] = ("", "none") := by
  refine ⟨?_, ?_, ?_⟩
  · intro cs top _hs ht
    match cs, ht with
    | top :: rest, rfl =>
      cases rest with
      | nil =>
        simp only [decide_match, secondScore, highCond, mediumCond]
        split_ifs with h1 h2 h3 <;> simp_all
      | cons b rest2 =>
        simp only [decide_match, secondScore, highCond, mediumCond]
        split_ifs with h1 h2 h3 <;> simp_all
  · intro i hi
    constructor
    · simp [decide_match]
    · simp [decide_match, hi]
  · decide

/-- Witness for C2: the general rule instantiated at a concrete sorted
two-candidate list. -/
theorem decide_match_confidence_rules_witness :
    (((decide_match [({ id := "w1", score := 95, name_exact := true, org_match := true }
          : ScoredCandidate), { score := 80 }]).2 = "high") ↔
      highCond ({ id := "w1", score := 95, name_exact := true, org_match := true }
          : ScoredCandidate)
        (({ id := "w1", score := 95, name_exact := true, org_match := true }
          : ScoredCandidate).score -
          secondScore [({ id := "w1", score := 95, name_exact := true, org_match := true }
          : ScoredCandidate), { score := 80 }]))
    ∧ (((decide_match [({ id := "w1", score := 95, name_exact := true, org_match := true }
          : ScoredCandidate), { score := 80 }]).2 = "medium") ↔
      mediumCond ({ id := "w1", score := 95, name_exact := true, org_match := true }
          : ScoredCandidate)
        (({ id := "w1", score := 95, name_exact := true, org_match := true }
          : ScoredCandidate).score -
          secondScore [({ id := "w1", score := 95, name_exact := true, org_match := true }
          : ScoredCandidate), { score := 80 }]))
    ∧ ((¬ highCond ({ id := "w1", score := 95, name_exact := true, org_match := true }
          : ScoredCandidate)
        (({ id := "w1", score := 95, name_exact := true, org_match := true }
          : ScoredCandidate).score -
          secondScore [({ id := "w1", score := 95, name_exact := true, org_match := true }
          : ScoredCandidate), { score := 80 }])
        ∧ ¬ mediumCond ({ id := "w1", score := 95, name_exact := true, org_match := true }
          : ScoredCandidate)
        (({ id := "w1", score := 95, name_exact := true, org_match := true }
          : ScoredCandidate).score -
          secondScore [({ id := "w1", score := 95, name_exact := true, org_match := true }
          : ScoredCandidate), { score := 80 }])) →
      decide_match [({ id := "w1", score := 95, name_exact := true, org_match := true }
          : ScoredCandidate), { score := 80 }] = ("", "none"))
    ∧ ((highCond ({ id := "w1", score := 95, name_exact := true, org_match := true }
          : ScoredCandidate)
        (({ id := "w1", score := 95, name_exact := true, org_match := true }
          : ScoredCandidate).score -
          secondScore [({ id := "w1", score := 95, name_exact := true, org_match := true }
          : ScoredCandidate), { score := 80 }])
        ∨ mediumCond ({ id := "w1", score := 95, name_exact := true, org_match := true }
          : ScoredCandidate)
        (({ id := "w1", score := 95, name_exact := true, org_match := true }
          : ScoredCandidate).score -
          secondScore [({ id := "w1", score := 95, name_exact := true, org_match := true }
          : ScoredCandidate), { score := 80 }])) →
      (decide_match [({ id := "w1", score := 95, name_exact := true, org_match := true }
          : ScoredCandidate), { score := 80 }]).1 =
        ({ id := "w1", score := 95, name_exact := true, org_match := true }
          : ScoredCandidate).id) :=
  decide_match_confidence_rules.1
    [({ id := "w1", score := 95, name_exact := true, org_match := true }
      : ScoredCandidate), { score := 80 }]
    ({ id := "w1", score := 95, name_exact := true, org_match := true } : ScoredCandidate)
    (by decide) rfl

/-- C3 (amended): with exactly one candidate the runner-up score defaults to
-1, so margin = top.score + 1; a lone candidate matches high through the exact
rule or, even without name_exact/org_match, whenever its score is at least 92,
and matches medium whenever its score is at least 82. -/
theorem decide_match_single_candidate :
    ∀ c : ScoredCandidate,
      decide_match [c] =
        (if c.name_exact ∧ c.org_match ∧ c.score ≥ 88 then (c.id, "high")
         else if c.score ≥ 92 then (c.id, "high")
         else if c.score ≥ 82 then (c.id, "medium")
         else ("", "none")) := by
  intro c
  simp only [decide_match]
  split_ifs <;> first | rfl | omega

/-- Counterexample for C3: a lone candidate with score 92 and neither
name_exact nor org_match is matched with high confidence, contradicting the
claim that such a candidate is not matched. -/
theorem decide_match_single_candidate_counterexample :
    decide_match [{ id := "9201", score := 92 }] = ("9201", "high")
    ∧ ({ id := "9201", score := 92 } : ScoredCandidate).name_exact = false
    ∧ ({ id := "9201", score := 92 } : ScoredCandidate).org_match = false := by
  decide

/-! ## Text utilities (utils.py): clean_text and its building blocks -/

/-- Python's whitespace class for str patterns and str.strip: the ASCII
whitespace characters together with the Unicode space separators. -/
def isPySpace (c : Char) : Bool :=
  let n := c.toNat
  (n == 0x09) || (n == 0x0a) || (n == 0x0b) || (n == 0x0c) || (n == 0x0d) ||
  (decide (0x1c ≤ n) && decide (n ≤ 0x1f)) || (n == 0x20) ||
  (n == 0x85) || (n == 0xa0) || (n == 0x1680) ||
  (decide (0x2000 ≤ n) && decide (n ≤ 0x200a)) ||
  (n == 0x2028) || (n == 0x2029) || (n == 0x202f) || (n == 0x205f) || (n == 0x3000)

/-- Characters the stdlib charref regex allows inside an entity name:
anything except tab, newline, form feed, space, angle bracket, ampersand,
hash and semicolon. -/
def refNameChar (c : Char) : Bool :=
  !((c == '\t') || (c == '\n') || (c == '\x0c') || (c == ' ') ||
    (c == '<') || (c == '&') || (c == '#') || (c == ';'))

/-- Modelled from the stdlib html5 entity table, restricted to a
representative set of named references (with and without the trailing
semicolon, as the stdlib table lists both); every input exercised in this
development only uses these. -/
def htmlEntityTable : List (String × String) :=
  [("amp;", "&"), ("amp", "&"), ("lt;", "<"), ("lt", "<"),
   ("gt;", ">"), ("gt", ">"), ("quot;", "\""), ("quot", "\""),
   ("nbsp;", "\xA0"), ("nbsp", "\xA0")]

/-- Take up to `k` leading entity-name characters, returning them and the
remaining input. -/
def takeRefName : Nat → List Char → List Char × List Char
  | _, [] => ([], [])
  | 0, rest => ([], rest)
  | Nat.succ k, c :: rest =>
    if refNameChar c then
      let p := takeRefName k rest
      (c :: p.1, p.2)
    else ([], c :: rest)

/-- Look a candidate entity name up in the table. -/
def lookupEntity (s : List Char) : Option (List Char) :=
  (htmlEntityTable.find? (fun kv => kv.1 == String.mk s)).map (fun kv => kv.2.data)

/-- Try the name itself and then ever shorter prefixes, as the stdlib
_replace_charref does; returns the replacement and the unconsumed suffix of
the name. -/
def resolveEntityAux : List Char → Nat → Option (List Char × List Char)
  | _, 0 => none
  | name, Nat.succ k =>
    match lookupEntity (name.take (Nat.succ k)) with
    | some repl => some (repl, name.drop (Nat.succ k))
    | none => resolveEntityAux name k

/-- Resolve an entity group (name with optional trailing semicolon). -/
def resolveEntity (name : List Char) : Option (List Char × List Char) :=
  resolveEntityAux name name.length

/-- One character-reference step right after an ampersand: returns the emitted
text and the rest of the input, or none when the regex does not match there.
Numeric references are outside this model; no input in this development
contains one. -/
def parseRef (cs : List Char) : Option (List Char × List Char) :=
  match cs with
  | [] => none
  | c :: _ =>
    if c = '#' then none
    else
      match takeRefName 32 cs with
      | ([], _) => none
      | (n0 :: name, rest0) =>
        match rest0 with
        | ';' :: rest2 =>
          match resolveEntity ((n0 :: name) ++ [';']) with
          | some (repl, leftover) => some (repl ++ leftover, rest2)
          | none => some ('&' :: ((n0 :: name) ++ [';']), rest2)
        | rest2 =>
          match resolveEntity (n0 :: name) with
          | some (repl, leftover) => some (repl ++ leftover, rest2)
          | none => some ('&' :: (n0 :: name), rest2)

theorem takeRefName_snd_length : ∀ k l, (takeRefName k l).2.length ≤ l.length := by
  intro k
  induction k with
  | zero => intro l; cases l <;> simp [takeRefName]
  | succ k ih =>
    intro l
    cases l with
    | nil => simp [takeRefName]
    | cons c rest =>
      simp only [takeRefName]
      split
      · simpa using Nat.le_succ_of_le (ih rest)
      · simp

theorem parseRef_rest_length {cs em rest} (h : parseRef cs = some (em, rest)) :
    rest.length ≤ cs.length := by
  unfold parseRef at h
  split at h
  · exact absurd h (by simp)
  · split at h
    · exact absurd h (by simp)
    · rename_i c rest1 hc
      have hlen := takeRefName_snd_length 32 (c :: rest1)
      split at h
      · exact absurd h (by simp)
      · rename_i n0 name rest0 htake
        rw [htake] at hlen
        simp only [List.length_cons] at hlen
        split at h
        · rename_i rest2
          split at h <;>
          · simp only [Option.some.injEq, Prod.mk.injEq] at h
            obtain ⟨-, h2⟩ := h
            subst h2
            simp only [List.length_cons] at hlen ⊢
            omega
        · split at h <;>
          · simp only [Option.some.injEq, Prod.mk.injEq] at h
            obtain ⟨-, h2⟩ := h
            subst h2
            simp only [List.length_cons]
            omega

/-- Scanner for unescape, structural on a fuel argument; each step consumes at
least one character, so fuel equal to the input length (as the wrapper below
passes) never runs out, by parseRef_rest_length. -/
def unescapeGo : Nat → List Char → List Char
  | 0, l => l
  | Nat.succ _, [] => []
  | Nat.succ k, c :: cs =>
    if c = '&' then
      match parseRef cs with
      | some (em, rest) => em ++ unescapeGo k rest
      | none => '&' :: unescapeGo k cs
    else c :: unescapeGo k cs

/-- Model of the stdlib html.unescape: scan the text and rewrite each
character reference; identity on text without an ampersand. -/
def unescapeChars (l : List Char) : List Char :=
  unescapeGo l.length l

/-- The whitespace-collapsing scan: the flag records whether the scanner is
inside a whitespace run (whose first character already emitted the single
blank). -/
def collapseGo : Bool → List Char → List Char
  | _, [] => []
  | inRun, c :: cs =>
    if isPySpace c then
      if inRun then collapseGo true cs else ' ' :: collapseGo true cs
    else c :: collapseGo false cs

/-- The whitespace-collapsing substitution in clean_text: every maximal run
of whitespace becomes a single blank. -/
def collapseWs (l : List Char) : List Char :=
  collapseGo false l

/-- Python str.strip: drop leading and trailing whitespace. -/
def stripChars (l : List Char) : List Char :=
  List.rdropWhile isPySpace (l.dropWhile isPySpace)

/-- clean_text from utils.py: unescape entities, collapse whitespace runs to
single blanks, strip; empty input short-circuits to the empty string. -/
def clean_text (value : String) : String :=
  if value = "" then ""
  else String.mk (stripChars (collapseWs (unescapeChars value.data)))

/-! ### Idempotence analysis of clean_text -/

/-- Whitespace-normal form: every whitespace character is the plain blank and
no two whitespace characters are adjacent.  collapseWs produces exactly such
lists. -/
def Normed (l : List Char) : Prop :=
  (∀ c ∈ l, isPySpace c = true → c = ' ') ∧
  List.Chain' (fun a b => ¬(isPySpace a = true ∧ isPySpace b = true)) l

theorem collapseGo_head_not_space (l : List Char) :
    ∀ c, (collapseGo true l).head? = some c → isPySpace c = false := by
  induction l with
  | nil => simp [collapseGo]
  | cons a as ih =>
    intro c hc
    by_cases ha : isPySpace a = true
    · simp only [collapseGo, ha, if_true] at hc
      exact ih c hc
    · simp only [collapseGo, ha, if_false, Bool.false_eq_true] at hc
      simp only [List.head?_cons, Option.some.injEq] at hc
      subst hc
      exact Bool.of_not_eq_true ha

theorem collapseGo_normed : ∀ (b : Bool) (l : List Char), Normed (collapseGo b l) := by
  intro b l
  induction l generalizing b with
  | nil => exact ⟨by simp [collapseGo], by simp [collapseGo]⟩
  | cons a as ih =>
    by_cases ha : isPySpace a = true
    · cases b with
      | true =>
        simpa only [collapseGo, ha, if_true] using ih true
      | false =>
        simp only [collapseGo, ha, if_true]
        obtain ⟨hmem, hchain⟩ := ih true
        refine ⟨?_, ?_⟩
        · intro c hc _
          rcases List.mem_cons.mp hc with h1 | h2
          · exact h1
          · exact hmem c h2 (by assumption)
        · refine List.chain'_cons'.mpr ⟨?_, hchain⟩
          intro y hy
          have := collapseGo_head_not_space as y hy
          simp [this]
    · simp only [collapseGo, ha, if_false]
      obtain ⟨hmem, hchain⟩ := ih false
      refine ⟨?_, ?_⟩
      · intro c hc hcs
        rcases List.mem_cons.mp hc with h1 | h2
        · subst h1; exact absurd hcs ha
        · exact hmem c h2 hcs
      · refine List.chain'_cons'.mpr ⟨?_, hchain⟩
        intro y _
        simp [ha]

theorem collapseGo_true_eq_false (l : List Char)
    (h : ∀ c, l.head? = some c → isPySpace c = false) :
    collapseGo true l = collapseGo false l := by
  cases l with
  | nil => rfl
  | cons a as =>
    have := h a rfl
    simp [collapseGo, this]

theorem collapseGo_eq_self_of_normed (l : List Char) (h : Normed l) :
    collapseGo false l = l := by
  induction l with
  | nil => rfl
  | cons a as ih =>
    obtain ⟨hmem, hchain⟩ := h
    have htail : Normed as :=
      ⟨fun c hc => hmem c (List.mem_cons_of_mem _ hc), hchain.tail⟩
    by_cases ha : isPySpace a = true
    · have haeq : a = ' ' := hmem a (List.mem_cons_self a as) ha
      have hd : ∀ c, as.head? = some c → isPySpace c = false := by
        intro c hc
        have hrel := (List.chain'_cons'.mp hchain).1 c hc
        by_contra hcs
        exact hrel ⟨ha, Bool.of_not_eq_false hcs⟩
      have hstep : collapseGo false (a :: as) = ' ' :: collapseGo true as := by
        simp [collapseGo, ha]
      rw [hstep, collapseGo_true_eq_false as hd, ih htail, haeq]
    · have hstep : collapseGo false (a :: as) = a :: collapseGo false as := by
        simp [collapseGo, ha]
      rw [hstep, ih htail]

theorem normed_dropWhile {l : List Char} (h : Normed l) :
    Normed (l.dropWhile isPySpace) :=
  ⟨fun c hc => h.1 c ((List.dropWhile_suffix _).sublist.subset hc),
   h.2.suffix (List.dropWhile_suffix _)⟩

theorem normed_rdropWhile {l : List Char} (h : Normed l) :
    Normed (l.rdropWhile isPySpace) :=
  ⟨fun c hc => h.1 c (( List.rdropWhile_prefix _ _).sublist.subset hc),
   List.Chain'.prefix h.2 ( List.rdropWhile_prefix _ _)⟩

theorem normed_stripChars {l : List Char} (h : Normed l) : Normed (stripChars l) :=
  normed_rdropWhile (normed_dropWhile h)

theorem dropWhile_head_not_space (l : List Char) :
    ∀ c, (l.dropWhile isPySpace).head? = some c → isPySpace c = false := by
  induction l with
  | nil => simp
  | cons a as ih =>
    intro c hc
    by_cases ha : isPySpace a = true
    · rw [List.dropWhile_cons_of_pos ha] at hc
      exact ih c hc
    · rw [List.dropWhile_cons_of_neg ha] at hc
      simp only [List.head?_cons, Option.some.injEq] at hc
      subst hc
      exact Bool.of_not_eq_true ha

theorem stripChars_idem (l : List Char) : stripChars (stripChars l) = stripChars l := by
  unfold stripChars
  have h1 : (List.rdropWhile isPySpace (l.dropWhile isPySpace)).dropWhile isPySpace
      = List.rdropWhile isPySpace (l.dropWhile isPySpace) := by
    cases hy : List.rdropWhile isPySpace (l.dropWhile isPySpace) with
    | nil => rfl
    | cons c ys =>
      obtain ⟨t, ht⟩ := List.rdropWhile_prefix isPySpace (l.dropWhile isPySpace)
      rw [hy] at ht
      have hc : isPySpace c = false := by
        apply dropWhile_head_not_space l c
        rw [← ht]
        rfl
      rw [List.dropWhile_cons_of_neg (by simp [hc])]
  rw [h1]
  exact List.rdropWhile_idempotent _ _

theorem mem_collapseGo {c : Char} :
    ∀ (b : Bool) (l : List Char), c ∈ collapseGo b l → c = ' ' ∨ c ∈ l := by
  intro b l
  induction l generalizing b with
  | nil => intro h; simp [collapseGo] at h
  | cons a as ih =>
    intro hmem
    by_cases ha : isPySpace a = true
    · cases b with
      | true =>
        simp only [collapseGo, ha, if_true] at hmem
        rcases ih true hmem with h1 | h2
        · exact Or.inl h1
        · exact Or.inr (List.mem_cons_of_mem _ h2)
      | false =>
        simp only [collapseGo, ha, if_true] at hmem
        rcases List.mem_cons.mp hmem with h1 | h2
        · exact Or.inl h1
        · rcases ih true h2 with h3 | h4
          · exact Or.inl h3
          · exact Or.inr (List.mem_cons_of_mem _ h4)
    · have hstep : collapseGo b (a :: as) = a :: collapseGo false as := by
        cases b <;> simp [collapseGo, ha]
      rw [hstep] at hmem
      rcases List.mem_cons.mp hmem with h1 | h2
      · exact Or.inr (h1 ▸ List.mem_cons_self a as)
      · rcases ih false h2 with h3 | h4
        · exact Or.inl h3
        · exact Or.inr (List.mem_cons_of_mem _ h4)

theorem mem_stripChars {c : Char} {l : List Char} (h : c ∈ stripChars l) : c ∈ l :=
  (List.dropWhile_suffix _).sublist.subset
    (( List.rdropWhile_prefix _ _).sublist.subset h)

theorem unescapeGo_eq_self :
    ∀ (k : Nat) (l : List Char), (∀ c ∈ l, ¬ c = '&') → unescapeGo k l = l := by
  intro k
  induction k with
  | zero => intro l _; rfl
  | succ k ih =>
    intro l h
    cases l with
    | nil => rfl
    | cons c cs =>
      have hc : ¬ c = '&' := h c (List.mem_cons_self c cs)
      simp only [unescapeGo, if_neg hc]
      rw [ih cs (fun d hd => h d (List.mem_cons_of_mem _ hd))]

theorem unescapeChars_eq_self (l : List Char) (h : ∀ c ∈ l, ¬ c = '&') :
    unescapeChars l = l :=
  unescapeGo_eq_self l.length l h

/-- C5 (amended): clean_text is idempotent on every string that contains no
ampersand; on a string carrying a stacked character reference the second
application unescapes one more level, so unconditional idempotence fails. -/
theorem clean_text_idempotent_ampersand_free :
    ∀ s : String, (∀ c ∈ s.data, ¬ c = '&') → clean_text (clean_text s) = clean_text s := by
  intro s h
  by_cases hs : s = ""
  · subst hs
    rfl
  · have hdata : unescapeChars s.data = s.data := unescapeChars_eq_self _ h
    have h1 : clean_text s = String.mk (stripChars (collapseWs s.data)) := by
      unfold clean_text
      rw [if_neg hs, hdata]
    by_cases h2 : String.mk (stripChars (collapseWs s.data)) = ""
    · rw [h1, h2]
      rfl
    · have hmem : ∀ c ∈ stripChars (collapseWs s.data), ¬ c = '&' := by
        intro c hc
        rcases mem_collapseGo false s.data (mem_stripChars hc) with h3 | h4
        · subst h3; decide
        · exact h c h4
      have hnormed : Normed (stripChars (collapseWs s.data)) :=
        normed_stripChars (collapseGo_normed false s.data)
      have hun := unescapeChars_eq_self _ hmem
      rw [h1]
      unfold clean_text
      rw [if_neg h2]
      show String.mk (stripChars (collapseWs (unescapeChars (stripChars (collapseWs s.data)))))
        = String.mk (stripChars (collapseWs s.data))
      rw [hun]
      show String.mk (stripChars (collapseGo false (stripChars (collapseWs s.data))))
        = String.mk (stripChars (collapseWs s.data))
      rw [collapseGo_eq_self_of_normed _ hnormed]
      rw [stripChars_idem]

/-- Witness for C5: the amended idempotence applied to a concrete
ampersand-free string with a double blank. -/
theorem clean_text_idempotent_ampersand_free_witness :
    (∀ c ∈ ("a  b" : String).data, ¬ c = '&')
    ∧ clean_text (clean_text ("a  b")) = clean_text ("a  b") :=
  ⟨by decide, clean_text_idempotent_ampersand_free ("a  b") (by decide)⟩

/-- Counterexample for C5: clean_text unescapes one level of character
references per application, so on the stacked reference the second
application keeps rewriting and idempotence fails. -/
theorem clean_text_idempotent_counterexample :
    ¬ clean_text (clean_text ("&amp;amp;")) = clean_text ("&amp;amp;") := by
  decide

/-! ## Search tokens (utils.py): build_search_tokens -/


/-- Modelled from the stdlib str.lower, restricted to ASCII and fullwidth
Latin capitals; every input exercised in this development only needs these. -/
def pyLowerChar (c : Char) : Char :=
  let n := c.toNat
  if 0x41 ≤ n ∧ n ≤ 0x5a then Char.ofNat (n + 32)
  else if 0xff21 ≤ n ∧ n ≤ 0xff3a then Char.ofNat (n + 32)
  else c

def pyLower (l : List Char) : List Char := l.map pyLowerChar

/-- First alternative of TOKEN_PATTERN: an ASCII alphanumeric character. -/
def isTokenAlnum (c : Char) : Bool :=
  let n := c.toNat
  (decide (0x30 ≤ n) && decide (n ≤ 0x39)) ||
  (decide (0x41 ≤ n) && decide (n ≤ 0x5a)) ||
  (decide (0x61 ≤ n) && decide (n ≤ 0x7a))

/-- Second alternative of TOKEN_PATTERN: hiragana, katakana, the CJK block up
to U+9F65, the iteration mark and the long-vowel mark. -/
def isJpChar (c : Char) : Bool :=
  let n := c.toNat
  (decide (0x3041 ≤ n) && decide (n ≤ 0x3093)) ||
  (decide (0x30a1 ≤ n) && decide (n ≤ 0x30f3)) ||
  (decide (0x4e00 ≤ n) && decide (n ≤ 0x9f65)) ||
  (n == 0x3005) || (n == 0x30fc)

/-- re.findall over TOKEN_PATTERN: maximal single-class runs, scanning left to
right; structural on a fuel argument which the wrapper seeds with the input
length (each step consumes at least one character). -/
def findTokensGo : Nat → List Char → List (List Char)
  | 0, _ => []
  | Nat.succ _, [] => []
  | Nat.succ k, c :: cs =>
    if isTokenAlnum c then
      ((c :: cs).takeWhile isTokenAlnum) :: findTokensGo k ((c :: cs).dropWhile isTokenAlnum)
    else if isJpChar c then
      ((c :: cs).takeWhile isJpChar) :: findTokensGo k ((c :: cs).dropWhile isJpChar)
    else findTokensGo k cs

def findTokens (l : List Char) : List (List Char) := findTokensGo l.length l

/-- All contiguous substrings of the given size, as the index loop in
build_search_tokens enumerates them. -/
def ngrams (l : List Char) (size : Nat) : List (List Char) :=
  (List.range (l.length + 1 - size)).map (fun i => (l.drop i).take size)

/-- The candidates one regex match contributes: the token itself and, for
Japanese-script tokens, its 2- and 3-grams over the blank-stripped form. -/
def matchCandidates (tok : List Char) : List (List Char) :=
  tok ::
    (if tok.any isJpChar then
      ngrams (tok.filter (fun c => !(c == ' '))) 2 ++ ngrams (tok.filter (fun c => !(c == ' '))) 3
     else [])

/-- Every candidate token of one input value, in emission order. -/
def valueCandidates (text : List Char) : List (List Char) :=
  ((findTokens text).map matchCandidates).flatten

/-- add_token from build_search_tokens: skip empty and already-seen values,
else append.  The Python seen set always holds exactly the list's elements,
so it is modelled by a containment check on the list. -/
def addToken (st : List String) (v : String) : List String :=
  if v = "" ∨ st.contains v then st else st ++ [v]

def addValueTokens (st : List String) (text : List Char) : List String :=
  (valueCandidates text).foldl (fun acc tok => addToken acc (String.mk tok)) st

/-- The per-value loop of build_search_tokens: skip values that clean to
empty, accumulate one value's tokens, and stop consuming further values once
more than 80 tokens have accumulated. -/
def buildTokensLoop (st : List String) : List String → List String
  | [] => st
  | v :: rest =>
    let text := pyLower (clean_text v).data
    if text.isEmpty then buildTokensLoop st rest
    else
      let st2 := addValueTokens st text
      if st2.length > 80 then st2
      else buildTokensLoop st2 rest

/-- build_search_tokens from utils.py. -/
def build_search_tokens (values : List String) : List String :=
  buildTokensLoop [] values

theorem addToken_length (st : List String) (v : String) :
    (addToken st v).length ≤ st.length + 1 := by
  unfold addToken
  split
  · omega
  · simp

theorem foldl_addToken_length :
    ∀ (cands : List (List Char)) (st : List String),
      (cands.foldl (fun acc tok => addToken acc (String.mk tok)) st).length
        ≤ st.length + cands.length := by
  intro cands
  induction cands with
  | nil => intro st; simp
  | cons c cs ih =>
    intro st
    simp only [List.foldl_cons, List.length_cons]
    have h1 := ih (addToken st (String.mk c))
    have h2 := addToken_length st (String.mk c)
    omega

theorem buildTokensLoop_bound :
    ∀ (vs : List String) (st : List String), st.length ≤ 80 →
      (buildTokensLoop st vs).length ≤ 80
      ∨ ∃ v ∈ vs, (buildTokensLoop st vs).length ≤
          80 + (valueCandidates (pyLower (clean_text v).data)).length := by
  intro vs
  induction vs with
  | nil => intro st h; exact Or.inl h
  | cons v rest ih =>
    intro st h
    simp only [buildTokensLoop]
    split
    · rcases ih st h with h1 | ⟨w, hw, hb⟩
      · exact Or.inl h1
      · exact Or.inr ⟨w, List.mem_cons_of_mem _ hw, hb⟩
    · split
      · rename_i hgt
        refine Or.inr ⟨v, List.mem_cons_self v rest, ?_⟩
        have := foldl_addToken_length (valueCandidates (pyLower (clean_text v).data)) st
        unfold addValueTokens
        omega
      · rename_i hle
        rcases ih (addValueTokens st (pyLower (clean_text v).data)) (by omega) with h1 | ⟨w, hw, hb⟩
        · exact Or.inl h1
        · exact Or.inr ⟨w, List.mem_cons_of_mem _ hw, hb⟩

/-- C6 (amended): build_search_tokens checks the 80-token cap only between
input values: the accumulated list has at most 80 tokens before each value is
consumed, so the result either stays within 80 tokens or exceeds it by at most
the candidate tokens of the single value that crossed the cap; the result is
not in general capped at 80. -/
theorem build_search_tokens_soft_cap :
    ∀ values : List String,
      (build_search_tokens values).length ≤ 80
      ∨ ∃ v ∈ values, (build_search_tokens values).length ≤
          80 + (valueCandidates (pyLower (clean_text v).data)).length :=
  fun values => buildTokensLoop_bound values [] (by simp)

set_option maxRecDepth 8000 in
/-- Counterexample for C6: a single value of 42 distinct ideographs emits the
run itself plus 41 2-grams and 40 3-grams, 82 tokens in one value iteration,
and the cap check only runs after the value is done. -/
theorem build_search_tokens_cap_counterexample :
    80 < (build_search_tokens
      [String.mk ((List.range 42).map (fun i => Char.ofNat (0x4e00 + i)))]).length := by
  decide

/-! ## Dedupe key (utils.py): SHA-1 over the joined cleaned parts -/

/-- UTF-8 encoding of one character. -/
def utf8Char (c : Char) : List Nat :=
  let n := c.toNat
  if n < 0x80 then [n]
  else if n < 0x800 then [0xc0 + n / 0x40, 0x80 + n % 0x40]
  else if n < 0x10000 then
    [0xe0 + n / 0x1000, 0x80 + (n / 0x40) % 0x40, 0x80 + n % 0x40]
  else
    [0xf0 + n / 0x40000, 0x80 + (n / 0x1000) % 0x40, 0x80 + (n / 0x40) % 0x40, 0x80 + n % 0x40]

/-- UTF-8 encoding of a string, as Python's str.encode produces it. -/
def utf8Bytes (s : String) : List Nat :=
  (s.data.map utf8Char).flatten

/-- 32-bit left rotation on naturals below 2^32. -/
def rotl32 (x n : Nat) : Nat :=
  ((x * 2 ^ n) % 2 ^ 32) + (x / 2 ^ (32 - n))

/-- Big-endian byte expansion, k bytes. -/
def beBytes (k n : Nat) : List Nat :=
  (List.range k).map (fun i => (n / 2 ^ (8 * (k - 1 - i))) % 256)

/-- SHA-1 message padding: 0x80, zeros to 56 mod 64, 8-byte big-endian bit
length. -/
def sha1Pad (msg : List Nat) : List Nat :=
  let r := (msg.length + 1) % 64
  let padLen := (56 + 64 - r) % 64
  msg ++ [0x80] ++ List.replicate padLen 0 ++ beBytes 8 (msg.length * 8)

/-- Big-endian 32-bit words of a chunk. -/
def toWords : List Nat → List Nat
  | b0 :: b1 :: b2 :: b3 :: rest => (((b0 * 256 + b1) * 256 + b2) * 256 + b3) :: toWords rest
  | _ => []

/-- 64-byte chunks of the padded message; fuel-structural, the wrapper seeds
fuel with the length. -/
def chunksGo : Nat → List Nat → List (List Nat)
  | 0, _ => []
  | Nat.succ _, [] => []
  | Nat.succ k, l => (l.take 64) :: chunksGo k (l.drop 64)

/-- Extend 16 schedule words to 80. -/
def extendGo (acc : List Nat) : Nat → List Nat
  | 0 => acc
  | Nat.succ k =>
    let i := acc.length
    let w := rotl32
      (Nat.xor (Nat.xor (acc.getD (i - 3) 0) (acc.getD (i - 8) 0))
        (Nat.xor (acc.getD (i - 14) 0) (acc.getD (i - 16) 0))) 1
    extendGo (acc ++ [w]) k

/-- SHA-1 round function per 20-round band. -/
def sha1F (i b c d : Nat) : Nat :=
  if i < 20 then Nat.lor (Nat.land b c) (Nat.land (2 ^ 32 - 1 - b) d)
  else if i < 40 then Nat.xor (Nat.xor b c) d
  else if i < 60 then Nat.lor (Nat.lor (Nat.land b c) (Nat.land b d)) (Nat.land c d)
  else Nat.xor (Nat.xor b c) d

/-- SHA-1 round constants per 20-round band. -/
def sha1K (i : Nat) : Nat :=
  if i < 20 then 0x5a827999
  else if i < 40 then 0x6ed9eba1
  else if i < 60 then 0x8f1bbcdc
  else 0xca62c1d6

/-- The 80 compression rounds. -/
def roundsGo : Nat → List Nat → Nat × Nat × Nat × Nat × Nat → Nat × Nat × Nat × Nat × Nat
  | _, [], st => st
  | i, w :: ws, (a, b, c, d, e) =>
    let temp := (rotl32 a 5 + sha1F i b c d + e + sha1K i + w) % 2 ^ 32
    roundsGo (i + 1) ws (temp, a, rotl32 b 30, c, d)

/-- Process one 64-byte chunk. -/
def processChunk (h : Nat × Nat × Nat × Nat × Nat) (chunk : List Nat) :
    Nat × Nat × Nat × Nat × Nat :=
  let ws := extendGo (toWords chunk) 64
  let (h0, h1, h2, h3, h4) := h
  let (a, b, c, d, e) := roundsGo 0 ws (h0, h1, h2, h3, h4)
  ((h0 + a) % 2 ^ 32, (h1 + b) % 2 ^ 32, (h2 + c) % 2 ^ 32, (h3 + d) % 2 ^ 32,
    (h4 + e) % 2 ^ 32)

def hexDigit (n : Nat) : Char :=
  if n < 10 then Char.ofNat (48 + n) else Char.ofNat (87 + n)

def hex8 (n : Nat) : List Char :=
  (List.range 8).map (fun i => hexDigit ((n / 16 ^ (7 - i)) % 16))

/-- SHA-1 lowercase hex digest of a byte sequence, as hashlib.sha1 produces
it. -/
def sha1Hex (msg : List Nat) : String :=
  let padded := sha1Pad msg
  let cs := chunksGo padded.length padded
  let (h0, h1, h2, h3, h4) :=
    cs.foldl processChunk (0x67452301, 0xefcdab89, 0x98badcfe, 0x10325476, 0xc3d2e1f0)
  String.mk (hex8 h0 ++ hex8 h1 ++ hex8 h2 ++ hex8 h3 ++ hex8 h4)

/-- compute_dedupe_key from utils.py: join the cleaned forms of the truthy
parts with a bar, hash with SHA-1; empty base short-circuits to "". -/
def compute_dedupe_key (parts : List String) : String :=
  let base := String.intercalate "|" ((parts.filter (fun p => !(p == ""))).map clean_text)
  if base = "" then "" else sha1Hex (utf8Bytes base)

/-- The claim's literal reading of the base string: the bar-join of those
cleaned parts that are non-empty (filtering after cleaning). -/
def specNonEmptyCleanedJoin (parts : List String) : String :=
  String.intercalate "|" ((parts.map clean_text).filter (fun p => !(p == "")))

/-- The claim's literal reading of compute_dedupe_key. -/
def specDedupeKeyLiteral (parts : List String) : String :=
  if specNonEmptyCleanedJoin parts = "" then ""
  else sha1Hex (utf8Bytes (specNonEmptyCleanedJoin parts))

set_option maxRecDepth 40000 in
/-- Counterexample for C4: on parts ("a", " ") the code joins the cleaned
forms of the truthy parts, so the blank part contributes an empty segment and
the base is "a|", while the claim's join of the non-empty cleaned parts is
just "a"; the digests differ. -/
theorem compute_dedupe_key_literal_counterexample :
    ¬ compute_dedupe_key (["a", " "]) = specDedupeKeyLiteral (["a", " "])
    ∧ compute_dedupe_key (["a", " "]) = sha1Hex (utf8Bytes ("a|"))
    ∧ specDedupeKeyLiteral (["a", " "]) = sha1Hex (utf8Bytes ("a")) := by
  refine ⟨by decide, by decide, by decide⟩

/-- C4 (amended): compute_dedupe_key returns the SHA-1 hex digest of the
bar-join of the cleaned forms of the non-empty raw parts (a part that cleans
to empty still contributes an empty segment), and returns "" when the joined
base is empty, in particular on empty input; it is deterministic, and two
triples whose raw emptiness patterns agree and whose cleaned components agree
get the same key regardless of source. -/
theorem compute_dedupe_key_join_semantics :
    (∀ parts : List String, compute_dedupe_key parts =
      (if String.intercalate "|" ((parts.filter (fun p => !(p == ""))).map clean_text) = ""
       then ""
       else sha1Hex (utf8Bytes
        (String.intercalate "|" ((parts.filter (fun p => !(p == ""))).map clean_text)))))
    ∧ compute_dedupe_key [] = ""
    ∧ (∀ o1 n1 c1 o2 n2 c2 : String,
        (o1 = "" ↔ o2 = "") → (n1 = "" ↔ n2 = "") → (c1 = "" ↔ c2 = "") →
        clean_text o1 = clean_text o2 → clean_text n1 = clean_text n2 →
        clean_text c1 = clean_text c2 →
        compute_dedupe_key [o1, n1, c1] = compute_dedupe_key [o2, n2, c2]) := by
  refine ⟨fun parts => rfl, rfl, ?_⟩
  intro o1 n1 c1 o2 n2 c2 ho hn hc e1 e2 e3
  unfold compute_dedupe_key
  by_cases h1 : o1 = "" <;> by_cases h2 : n1 = "" <;> by_cases h3 : c1 = "" <;>
    simp_all [List.filter_cons]

/-- Witness for C4: the triple congruence applied to two concrete org/name/
category triples differing only by trailing whitespace in the org name. -/
theorem compute_dedupe_key_join_semantics_witness :
    ((("東京大学 " : String) = "") ↔ (("東京大学" : String) = ""))
    ∧ ((("SEM" : String) = "") ↔ (("SEM" : String) = ""))
    ∧ ((("装置" : String) = "") ↔ (("装置" : String) = ""))
    ∧ clean_text ("東京大学 ") = clean_text ("東京大学")
    ∧ clean_text ("SEM") = clean_text ("SEM")
    ∧ clean_text ("装置") = clean_text ("装置")
    ∧ compute_dedupe_key (["東京大学 ", "SEM", "装置"])
        = compute_dedupe_key (["東京大学", "SEM", "装置"]) :=
  ⟨by decide, by decide, by decide, by decide, by decide, by decide,
   compute_dedupe_key_join_semantics.2.2 ("東京大学 ") ("SEM") ("装置")
     ("東京大学") ("SEM") ("装置")
     (by decide) (by decide) (by decide) (by decide) (by decide) (by decide)⟩

/-! ## Classification utilities (utils.py) and the record model (models.py) -/

/-- Substring prefix test over character lists. -/
def startsWithChars : List Char → List Char → Bool
  | [], _ => true
  | _ :: _, [] => false
  | p :: ps, c :: cs => (p == c) && startsWithChars ps cs

/-- Python's `needle in hay` substring test. -/
def containsSub (needle : List Char) : List Char → Bool
  | [] => needle.isEmpty
  | c :: rest => startsWithChars needle (c :: rest) || containsSub needle rest

def strContains (hay needle : String) : Bool := containsSub needle.data hay.data

/-- The 47 prefecture names, in the source's scan order. -/
def PREFECTURES : List String :=
  ["北海道", "青森県", "岩手県", "宮城県", "秋田県", "山形県", "福島県",
   "茨城県", "栃木県", "群馬県", "埼玉県", "千葉県", "東京都", "神奈川県",
   "新潟県", "富山県", "石川県", "福井県", "山梨県", "長野県", "岐阜県",
   "静岡県", "愛知県", "三重県", "滋賀県", "京都府", "大阪府", "兵庫県",
   "奈良県", "和歌山県", "鳥取県", "島根県", "岡山県", "広島県", "山口県",
   "徳島県", "香川県", "愛媛県", "高知県", "福岡県", "佐賀県", "長崎県",
   "熊本県", "大分県", "宮崎県", "鹿児島県", "沖縄県"]

/-- Prefecture-to-region mapping from utils.py. -/
def REGION_MAP : List (String × String) :=
  [("北海道", "北海道"), ("青森県", "東北"), ("岩手県", "東北"), ("宮城県", "東北"),
   ("秋田県", "東北"), ("山形県", "東北"), ("福島県", "東北"),
   ("茨城県", "関東"), ("栃木県", "関東"), ("群馬県", "関東"), ("埼玉県", "関東"),
   ("千葉県", "関東"), ("東京都", "関東"), ("神奈川県", "関東"),
   ("新潟県", "中部"), ("富山県", "中部"), ("石川県", "中部"), ("福井県", "中部"),
   ("山梨県", "中部"), ("長野県", "中部"), ("岐阜県", "中部"), ("静岡県", "中部"),
   ("愛知県", "中部"), ("三重県", "中部"),
   ("滋賀県", "関西"), ("京都府", "関西"), ("大阪府", "関西"), ("兵庫県", "関西"),
   ("奈良県", "関西"), ("和歌山県", "関西"),
   ("鳥取県", "中国"), ("島根県", "中国"), ("岡山県", "中国"), ("広島県", "中国"),
   ("山口県", "中国"),
   ("徳島県", "四国"), ("香川県", "四国"), ("愛媛県", "四国"), ("高知県", "四国"),
   ("福岡県", "九州"), ("佐賀県", "九州"), ("長崎県", "九州"), ("熊本県", "九州"),
   ("大分県", "九州"), ("宮崎県", "九州"), ("鹿児島県", "九州"),
   ("沖縄県", "沖縄")]

/-- guess_prefecture from utils.py: the first of the 47 names found as a
substring, else "". -/
def guess_prefecture (text : String) : String :=
  if text = "" then ""
  else ((PREFECTURES.find? (fun pref => strContains text pref)).getD "")

/-- resolve_region from utils.py: REGION_MAP lookup with "" default. -/
def resolve_region (prefecture : String) : String :=
  if prefecture = "" then ""
  else (((REGION_MAP.find? (fun kv => kv.1 == prefecture)).map (fun kv => kv.2)).getD "")

/-- classify_external_use from utils.py: negative phrases first, then
consultation phrases, then affirmative, else unknown. -/
def classify_external_use (value : String) : String :=
  if strContains value ("不可") || strContains value ("利用不可") then "不可"
  else if strContains value ("要相談") || strContains value ("お問い合わせ")
      || strContains value ("問合せ") then "要相談"
  else if strContains value ("可") || strContains value ("可能")
      || strContains value ("利用可") then "可"
  else "不明"

/-- classify_fee_band from utils.py. -/
def classify_fee_band (value : String) : String :=
  if strContains value ("無料") then "無料"
  else if strContains value ("有料") || strContains value ("円")
      || strContains value ("¥") || strContains value ("￥") then "有料"
  else "不明"

/-! ### parse_date: the DATE_PATTERN regex and datetime validation -/

def isAsciiDigit (c : Char) : Bool :=
  decide (0x30 ≤ c.toNat) && decide (c.toNat ≤ 0x39)

def digitVal (c : Char) : Nat := c.toNat - 0x30

def sep1Char (c : Char) : Bool := (c == '.') || (c == '/') || (c == '年') || (c == '-')

def sep2Char (c : Char) : Bool := (c == '.') || (c == '/') || (c == '月') || (c == '-')

/-- The trailing day group: one or two digits, greedily two. -/
def matchDay : List Char → Option Nat
  | [] => none
  | [a] => if isAsciiDigit a then some (digitVal a) else none
  | a :: b :: _ =>
    if isAsciiDigit a then
      if isAsciiDigit b then some (digitVal a * 10 + digitVal b)
      else some (digitVal a)
    else none

/-- Month group (greedily two digits, with regex backtracking to one), its
separator, and the day group. -/
def matchMD (l : List Char) : Option (Nat × Nat) :=
  match l with
  | a :: rest =>
    if isAsciiDigit a then
      match rest with
      | b :: s :: rest2 =>
        if isAsciiDigit b && sep2Char s then
          match matchDay rest2 with
          | some d => some (digitVal a * 10 + digitVal b, d)
          | none =>
            if sep2Char b then (matchDay (s :: rest2)).map (fun d => (digitVal a, d))
            else none
        else
          if sep2Char b then (matchDay (s :: rest2)).map (fun d => (digitVal a, d))
          else none
      | [b] =>
        if sep2Char b then (matchDay []).map (fun d => (digitVal a, d)) else none
      | [] => none
    else none
  | [] => none

/-- Try DATE_PATTERN at this exact position. -/
def matchDateAt (l : List Char) : Option (Nat × Nat × Nat) :=
  match l with
  | y1 :: y2 :: y3 :: y4 :: s1 :: rest =>
    if isAsciiDigit y1 && isAsciiDigit y2 && isAsciiDigit y3 && isAsciiDigit y4
        && sep1Char s1 then
      match matchMD rest with
      | some (m, d) =>
        some (((digitVal y1 * 10 + digitVal y2) * 10 + digitVal y3) * 10 + digitVal y4, m, d)
      | none => none
    else none
  | _ => none

/-- re.search over DATE_PATTERN: first position with a match. -/
def searchDate : List Char → Option (Nat × Nat × Nat)
  | [] => none
  | c :: cs =>
    match matchDateAt (c :: cs) with
    | some r => some r
    | none => searchDate cs

def isLeapYear (y : Nat) : Bool :=
  (y % 4 == 0) && (!(y % 100 == 0) || (y % 400 == 0))

def daysInMonth (y m : Nat) : Nat :=
  if m == 2 then (if isLeapYear y then 29 else 28)
  else if m == 4 || m == 6 || m == 9 || m == 11 then 30
  else 31

/-- The datetime constructor's validity check (MINYEAR 1, MAXYEAR 9999). -/
def validDate (y m d : Nat) : Bool :=
  decide (1 ≤ y) && decide (y ≤ 9999) && decide (1 ≤ m) && decide (m ≤ 12)
    && decide (1 ≤ d) && decide (d ≤ daysInMonth y m)

/-- Zero-padded fixed-width decimal rendering. -/
def padNum (width n : Nat) : List Char :=
  (List.range width).map (fun i => Char.ofNat (48 + (n / 10 ^ (width - 1 - i)) % 10))

/-- parse_date from utils.py: regex search, datetime validation, ISO date. -/
def parse_date (value : String) : String :=
  if value = "" then ""
  else
    match searchDate value.data with
    | none => ""
    | some (y, m, d) =>
      if validDate y m d then
        String.mk (padNum 4 y ++ ['-'] ++ padNum 2 m ++ ['-'] ++ padNum 2 d)
      else ""

/-! ### Record model (models.py) -/

/-- Coordinates are IEEE floats (`float | None`) in the source; no claim
inspects their numeric value, so a float is modelled by its raw bit
pattern. -/
structure PyFloat where
  bits : Nat
deriving DecidableEq, Repr

/-- RawEquipment from models.py, source-shaped, with the dataclass
defaults. -/
structure RawEquipment where
  equipment_id : String := ""
  name : String := ""
  category : String := ""
  category_general : String := ""
  category_detail : String := ""
  org_name : String := ""
  org_type : String := ""
  prefecture : String := ""
  address_raw : String := ""
  lat : Option PyFloat := none
  lng : Option PyFloat := none
  external_use : String := ""
  fee_note : String := ""
  conditions_note : String := ""
  source_url : String := ""
  source_updated_at : String := ""
deriving DecidableEq, Repr

/-- EquipmentRecord from models.py, canonical, with the dataclass
defaults. -/
structure EquipmentRecord where
  equipment_id : String := ""
  name : String := ""
  category_general : String := ""
  category_detail : String := ""
  org_name : String := ""
  org_type : String := ""
  prefecture : String := ""
  region : String := ""
  address_raw : String := ""
  lat : Option PyFloat := none
  lng : Option PyFloat := none
  external_use : String := ""
  fee_band : String := ""
  fee_note : String := ""
  conditions_note : String := ""
  source_url : String := ""
  crawled_at : String := ""
  source_updated_at : String := ""
  dedupe_key : String := ""
  search_tokens : Option (List String) := none
  search_aliases : Option (List String) := none
deriving DecidableEq, Repr

/-- A Firestore field value as this pipeline stores them: strings, floats or
string arrays. -/
inductive FsValue where
  | s (v : String)
  | num (v : PyFloat)
  | arr (v : List String)
deriving DecidableEq, Repr

/-- One payload entry for a string field: to_firestore drops empty strings. -/
def strEntry (k v : String) : List (String × FsValue) :=
  if v = "" then [] else [(k, FsValue.s v)]

/-- One payload entry for an optional float field: to_firestore drops None
(any float value, 0.0 included, is kept since it compares unequal to "" and
None). -/
def floatEntry (k : String) : Option PyFloat → List (String × FsValue)
  | none => []
  | some x => [(k, FsValue.num x)]

/-- One payload entry for an optional list field: to_firestore drops None
(an empty list is kept since it compares unequal to "" and None). -/
def listEntry (k : String) : Option (List String) → List (String × FsValue)
  | none => []
  | some xs => [(k, FsValue.arr xs)]

/-- EquipmentRecord.to_firestore from models.py: the asdict payload in field
declaration order, with values equal to "" or None omitted. -/
def EquipmentRecord.to_firestore (r : EquipmentRecord) : List (String × FsValue) :=
  strEntry ("equipment_id") r.equipment_id ++ strEntry ("name") r.name
    ++ strEntry ("category_general") r.category_general
    ++ strEntry ("category_detail") r.category_detail
    ++ strEntry ("org_name") r.org_name ++ strEntry ("org_type") r.org_type
    ++ strEntry ("prefecture") r.prefecture ++ strEntry ("region") r.region
    ++ strEntry ("address_raw") r.address_raw
    ++ floatEntry ("lat") r.lat ++ floatEntry ("lng") r.lng
    ++ strEntry ("external_use") r.external_use ++ strEntry ("fee_band") r.fee_band
    ++ strEntry ("fee_note") r.fee_note
    ++ strEntry ("conditions_note") r.conditions_note
    ++ strEntry ("source_url") r.source_url ++ strEntry ("crawled_at") r.crawled_at
    ++ strEntry ("source_updated_at") r.source_updated_at
    ++ strEntry ("dedupe_key") r.dedupe_key
    ++ listEntry ("search_tokens") r.search_tokens
    ++ listEntry ("search_aliases") r.search_aliases

/-- Field lookup in a payload. -/
def getField (data : List (String × FsValue)) (k : String) : Option FsValue :=
  (data.find? (fun kv => kv.1 == k)).map (fun kv => kv.2)

/-! ### Normalizer (normalizer.py) -/

/-- Split a character list on a separator character. -/
def splitOnChar (sep : Char) : List Char → List (List Char)
  | [] => [[]]
  | c :: cs =>
    match splitOnChar sep cs with
    | [] => [[]]
    | h :: t => if c == sep then [] :: h :: t else (c :: h) :: t

/-- Python str.strip as a String operation. -/
def stripStr (s : String) : String := String.mk (stripChars s.data)

/-- The separator scan of split_category: a separator only applies when it
occurs and its stripped parts are non-empty, else the next one is tried. -/
def splitCatWithSeps : List Char → String → Option (String × String)
  | [], _ => none
  | sep :: seps, category =>
    if category.data.contains sep then
      match ((splitOnChar sep category.data).map
          (fun item => stripStr (String.mk item))).filter (fun item => !(item == "")) with
      | [] => splitCatWithSeps seps category
      | general :: rest =>
        some (general, match rest with | detail :: _ => detail | [] => "")
    else splitCatWithSeps seps category

/-- split_category from normalizer.py. -/
def split_category (category : String) : String × String :=
  if category = "" then ("", "")
  else
    match splitCatWithSeps (['>', '＞', '/', '／']) category with
    | some r => r
    | none => (stripStr category, "")

/-- classify_org_type from normalizer.py: keyword taxonomy in source order. -/
def classify_org_type (org_name : String) : String :=
  if org_name = "" then "不明"
  else if strContains org_name ("高専") || strContains org_name ("高等専門学校") then
    "高等専門学校"
  else if strContains org_name ("国立") && strContains org_name ("大学") then "国立大学"
  else if strContains org_name ("公立") && strContains org_name ("大学") then "公立大学"
  else if strContains org_name ("私立") && strContains org_name ("大学") then "私立大学"
  else if strContains org_name ("学校法人") then "私立大学"
  else if strContains org_name ("大学") then "国立大学"
  else if strContains org_name ("研究所") || strContains org_name ("研究機構")
      || strContains org_name ("研究センター") then "公的研究機関"
  else "不明"

/-- normalize_equipment from normalizer.py.  The source stamps crawled_at
with datetime.now(timezone.utc).isoformat(); the clock reading is passed as
the explicit `now` argument.  Fields the constructor call does not mention
(region, lat, lng, search_tokens, search_aliases) stay at their dataclass
defaults. -/
def normalize_equipment (now : String) (raw : RawEquipment) : EquipmentRecord :=
  let split :=
    if raw.category_general = "" then split_category raw.category
    else (raw.category_general, raw.category_detail)
  { equipment_id := raw.equipment_id
    name := raw.name
    category_general := split.1
    category_detail := split.2
    org_name := raw.org_name
    org_type := if raw.org_type = "" then classify_org_type raw.org_name else raw.org_type
    prefecture :=
      if raw.prefecture = "" then
        guess_prefecture (if raw.address_raw = "" then raw.org_name else raw.address_raw)
      else raw.prefecture
    address_raw := raw.address_raw
    external_use := classify_external_use raw.external_use
    fee_band := classify_fee_band raw.fee_note
    fee_note := raw.fee_note
    conditions_note := raw.conditions_note
    source_url := raw.source_url
    crawled_at := now
    source_updated_at := parse_date raw.source_updated_at
    dedupe_key := compute_dedupe_key [raw.org_name, raw.name, split.1] }

theorem find?_strEntry_none (p k v : String) (h : (k == p) = false) :
    List.find? (fun kv => kv.1 == p) (strEntry k v) = none := by
  unfold strEntry
  split <;> simp [h]

theorem find?_floatEntry_none (p k : String) (v : Option PyFloat) (h : (k == p) = false) :
    List.find? (fun kv => kv.1 == p) (floatEntry k v) = none := by
  cases v <;> simp [floatEntry, h]

theorem find?_listEntry_none (p k : String) (v : Option (List String)) (h : (k == p) = false) :
    List.find? (fun kv => kv.1 == p) (listEntry k v) = none := by
  cases v <;> simp [listEntry, h]

theorem floatEntry_none (k : String) : floatEntry k none = [] := rfl

theorem getField_lat_none (r : EquipmentRecord) (h : r.lat = none) :
    getField r.to_firestore ("lat") = none := by
  unfold getField EquipmentRecord.to_firestore
  rw [h]
  simp +decide [List.find?_append, find?_strEntry_none, find?_floatEntry_none,
    find?_listEntry_none, floatEntry_none]

theorem getField_lng_none (r : EquipmentRecord) (h : r.lng = none) :
    getField r.to_firestore ("lng") = none := by
  unfold getField EquipmentRecord.to_firestore
  rw [h]
  simp +decide [List.find?_append, find?_strEntry_none, find?_floatEntry_none,
    find?_listEntry_none, floatEntry_none]

/-- C9: normalize_equipment never copies coordinates from the raw record:
the returned record has lat = lng = None even when raw.lat and raw.lng are
set, and to_firestore consequently omits both keys from the persisted
payload. -/
theorem normalize_equipment_drops_coordinates :
    ∀ (now : String) (raw : RawEquipment),
      (normalize_equipment now raw).lat = none
      ∧ (normalize_equipment now raw).lng = none
      ∧ getField (normalize_equipment now raw).to_firestore ("lat") = none
      ∧ getField (normalize_equipment now raw).to_firestore ("lng") = none := by
  intro now raw
  exact ⟨rfl, rfl, getField_lat_none _ rfl, getField_lng_none _ rfl⟩

/-- C7 (amended): normalize_equipment leaves the region field empty — the
constructor call never passes region, so the dataclass default "" stands;
the region derivation from the prefecture happens downstream (build_updates
in backfill.py applies resolve_region), and resolve_region does map every one
of the 47 known prefecture names to a non-empty region. -/
theorem normalize_equipment_region :
    (∀ (now : String) (raw : RawEquipment), (normalize_equipment now raw).region = "")
    ∧ (∀ p, p ∈ PREFECTURES → ¬ resolve_region p = "") :=
  ⟨fun _ _ => rfl, by decide⟩

/-- Witness for C7: the non-empty-region half applied to the first
prefecture. -/
theorem normalize_equipment_region_witness :
    (("北海道" : String) ∈ PREFECTURES) ∧ ¬ resolve_region ("北海道") = "" :=
  ⟨by decide, normalize_equipment_region.2 ("北海道") (by decide)⟩

/-- Counterexample for C7: a record whose prefecture is the known name 東京都
gets region "" from normalize_equipment, not the non-empty region 関東 that
resolve_region assigns to that prefecture. -/
theorem normalize_equipment_region_counterexample :
    (normalize_equipment ("2026-10-12T00:00:00+00:00")
        { prefecture := "東京都", name := "走査電子顕微鏡", org_name := "東京大学" }).prefecture
      = "東京都"
    ∧ (("東京都" : String) ∈ PREFECTURES)
    ∧ resolve_region ("東京都") = "関東"
    ∧ (normalize_equipment ("2026-10-12T00:00:00+00:00")
        { prefecture := "東京都", name := "走査電子顕微鏡", org_name := "東京大学" }).region
      = ""
    ∧ ¬ ("" : String) = "関東" := by
  refine ⟨rfl, by decide, by decide, rfl, by decide⟩

/-! ## Upsert engine (firestore_client.py) over an explicit store state -/

/-- A stored document: its store-assigned id and its field map. -/
structure FsDoc where
  id : String
  data : List (String × FsValue)
deriving DecidableEq, Repr

/-- Python dict assignment on an association list: replace the first
occurrence of the key in place, else append. -/
def setField : List (String × FsValue) → String → FsValue → List (String × FsValue)
  | [], k, v => [(k, v)]
  | kv :: rest, k, v =>
    if kv.1 == k then (k, v) :: rest
    else kv :: setField rest k v

/-- A merge write: fields of the new payload overwrite, all others
survive. -/
def mergeData (old new : List (String × FsValue)) : List (String × FsValue) :=
  new.foldl (fun acc kv => setField acc kv.1 kv.2) old

/-- The collection.where(field, ==, value).limit(1) query: the first stored
document whose field equals the value. -/
def findByField (docs : List FsDoc) (field value : String) : Option FsDoc :=
  docs.find? (fun d => getField d.data field == some (FsValue.s value))

/-- doc.reference.set(data, merge=True): merge the payload into the document
with the given id. -/
def updateDoc (docs : List FsDoc) (docId : String) (new : List (String × FsValue)) :
    List FsDoc :=
  docs.map (fun d => if d.id == docId then { d with data := mergeData d.data new } else d)

/-- upsert_equipment from firestore_client.py.  The store-assigned id of
collection.document() is passed as the explicit `newId` argument; the store
contents are passed and returned explicitly.  Lookup order: equipment_id
query (when non-empty), dedupe_key query (when non-empty), else create,
writing the store id into the payload exactly when the record carries no
equipment_id. -/
def upsert_equipment (newId : String) (docs : List FsDoc) (record : EquipmentRecord) :
    List FsDoc × String × String :=
  let data := record.to_firestore
  match
    (if record.equipment_id = "" then none
     else findByField docs ("equipment_id") record.equipment_id) with
  | some doc => (updateDoc docs doc.id data, doc.id, "updated")
  | none =>
    match
      (if record.dedupe_key = "" then none
       else findByField docs ("dedupe_key") record.dedupe_key) with
    | some doc => (updateDoc docs doc.id data, doc.id, "updated")
    | none =>
      let data2 :=
        if record.equipment_id = "" then setField data ("equipment_id") (FsValue.s newId)
        else data
      (docs ++ [{ id := newId, data := data2 }], newId, "created")

theorem getField_setField (data : List (String × FsValue)) (k : String) (v : FsValue) :
    getField (setField data k v) k = some v := by
  induction data with
  | nil => simp [setField, getField, List.find?]
  | cons kv rest ih =>
    by_cases h : kv.1 == k
    · simp [setField, h, getField, List.find?]
    · simp only [setField, h, if_false, Bool.false_eq_true]
      simp only [getField, List.find?_cons, h]
      exact ih

theorem getField_strEntry_append (k v : String) (rest : List (String × FsValue)) :
    getField (strEntry k v ++ rest) k
      = if v = "" then getField rest k else some (FsValue.s v) := by
  unfold strEntry getField
  split
  · simp
  · rw [List.singleton_append, List.find?_cons_of_pos _ (by simp)]
    rfl

theorem getField_to_firestore_eqid (r : EquipmentRecord) (h : ¬ r.equipment_id = "") :
    getField r.to_firestore ("equipment_id") = some (FsValue.s r.equipment_id) := by
  unfold EquipmentRecord.to_firestore
  simp only [List.append_assoc]
  rw [getField_strEntry_append, if_neg h]

end Kikidoko
namespace Kikidoko

/-- The payload a created document stores: the record payload, with the
store-assigned id written into equipment_id exactly when the record supplied
none. -/
def createdData (newId : String) (r : EquipmentRecord) : List (String × FsValue) :=
  if r.equipment_id = "" then setField r.to_firestore ("equipment_id") (FsValue.s newId)
  else r.to_firestore

theorem upsert_first_create (r : EquipmentRecord) (id1 : String) (hne : ¬ r.equipment_id = "") :
    upsert_equipment id1 [] r = ([{ id := id1, data := r.to_firestore }], id1, "created") := by
  simp only [upsert_equipment, if_neg hne, findByField, List.find?, ite_self,
    List.nil_append]

/-- C1: upsert_equipment resolves its target in order — an existing document
with the same equipment_id is merge-updated; else one with the same dedupe_key
is merge-updated; else a new document is created whose stored equipment_id is
the store-assigned id exactly when the record supplied none — and consequently
two sequential writes carrying the same equipment_id collapse to one stored
document with the second call's fields merged over the first. -/
theorem upsert_equipment_protocol :
    (∀ (newId : String) (docs : List FsDoc) (r : EquipmentRecord) (d : FsDoc),
      ¬ r.equipment_id = "" →
      findByField docs ("equipment_id") r.equipment_id = some d →
      upsert_equipment newId docs r = (updateDoc docs d.id r.to_firestore, d.id, "updated"))
    ∧ (∀ (newId : String) (docs : List FsDoc) (r : EquipmentRecord) (d : FsDoc),
      (r.equipment_id = "" ∨ findByField docs ("equipment_id") r.equipment_id = none) →
      ¬ r.dedupe_key = "" →
      findByField docs ("dedupe_key") r.dedupe_key = some d →
      upsert_equipment newId docs r = (updateDoc docs d.id r.to_firestore, d.id, "updated"))
    ∧ (∀ (newId : String) (docs : List FsDoc) (r : EquipmentRecord),
      (r.equipment_id = "" ∨ findByField docs ("equipment_id") r.equipment_id = none) →
      (r.dedupe_key = "" ∨ findByField docs ("dedupe_key") r.dedupe_key = none) →
      upsert_equipment newId docs r =
        (docs ++ [{ id := newId, data := createdData newId r }], newId, "created")
      ∧ getField (createdData newId r) ("equipment_id")
          = some (FsValue.s (if r.equipment_id = "" then newId else r.equipment_id)))
    ∧ (∀ (r1 r2 : EquipmentRecord) (id1 id2 : String),
      r1.equipment_id = r2.equipment_id → ¬ r1.equipment_id = "" →
      upsert_equipment id2 (upsert_equipment id1 [] r1).1 r2
        = ([{ id := id1, data := mergeData r1.to_firestore r2.to_firestore }], id1, "updated")
      ∧ (upsert_equipment id1 [] r1).2.2 = "created") := by
  refine ⟨?_, ?_, ?_, ?_⟩
  · intro newId docs r d hne hfind
    simp only [upsert_equipment, if_neg hne, hfind]
  · intro newId docs r d h1 h2 hfind
    rcases h1 with h1 | h1
    · simp only [upsert_equipment, if_pos h1, if_neg h2, hfind]
    · by_cases he : r.equipment_id = ""
      · simp only [upsert_equipment, if_pos he, if_neg h2, hfind]
      · simp only [upsert_equipment, if_neg he, h1, if_neg h2, hfind]
  · intro newId docs r h1 h2
    constructor
    · have hs1 : (if r.equipment_id = "" then none
          else findByField docs ("equipment_id") r.equipment_id) = none := by
        rcases h1 with h1 | h1
        · rw [if_pos h1]
        · by_cases he : r.equipment_id = ""
          · rw [if_pos he]
          · rw [if_neg he, h1]
      have hs2 : (if r.dedupe_key = "" then none
          else findByField docs ("dedupe_key") r.dedupe_key) = none := by
        rcases h2 with h2 | h2
        · rw [if_pos h2]
        · by_cases hd : r.dedupe_key = ""
          · rw [if_pos hd]
          · rw [if_neg hd, h2]
      simp only [upsert_equipment, hs1, hs2, createdData]
    · unfold createdData
      by_cases he : r.equipment_id = ""
      · rw [if_pos he, if_pos he]
        exact getField_setField _ _ _
      · rw [if_neg he, if_neg he]
        exact getField_to_firestore_eqid r he
  · intro r1 r2 id1 id2 heq hne
    have hne2 : ¬ r2.equipment_id = "" := by rw [← heq]; exact hne
    have h1 := upsert_first_create r1 id1 hne
    have hfind : findByField [{ id := id1, data := r1.to_firestore }]
        ("equipment_id") r2.equipment_id = some { id := id1, data := r1.to_firestore } := by
      unfold findByField
      rw [List.find?_cons_of_pos]
      simp only [getField_to_firestore_eqid r1 hne, heq, beq_self_eq_true]
    constructor
    · rw [h1]
      simp only [upsert_equipment, if_neg hne2, hfind, updateDoc, List.map_cons,
        List.map_nil, beq_self_eq_true, if_true]
    · rw [h1]

/-- C10: every document created by upsert_equipment stores a non-empty
equipment_id: the record's own when supplied, otherwise the store-assigned
document id, which is written into the payload before the set. -/
theorem upsert_equipment_created_nonempty_id :
    ∀ (newId : String) (docs : List FsDoc) (r : EquipmentRecord),
      ¬ newId = "" →
      (upsert_equipment newId docs r).2.2 = "created" →
      (upsert_equipment newId docs r).1
          = docs ++ [{ id := newId, data := createdData newId r }]
      ∧ getField (createdData newId r) ("equipment_id")
          = some (FsValue.s (if r.equipment_id = "" then newId else r.equipment_id))
      ∧ ¬ (if r.equipment_id = "" then newId else r.equipment_id) = "" := by
  intro newId docs r hid hstatus
  unfold upsert_equipment at hstatus ⊢
  cases hc1 : (if r.equipment_id = "" then none
      else findByField docs ("equipment_id") r.equipment_id) with
  | some d =>
    rw [hc1] at hstatus
    simp at hstatus
  | none =>
    rw [hc1] at hstatus
    cases hc2 : (if r.dedupe_key = "" then none
        else findByField docs ("dedupe_key") r.dedupe_key) with
    | some d =>
      rw [hc2] at hstatus
      simp at hstatus
    | none =>
      refine ⟨by simp [createdData], ?_, ?_⟩
      · unfold createdData
        by_cases he : r.equipment_id = ""
        · rw [if_pos he, if_pos he]
          exact getField_setField _ _ _
        · rw [if_neg he, if_neg he]
          exact getField_to_firestore_eqid r he
      · by_cases he : r.equipment_id = ""
        · rw [if_pos he]
          exact hid
        · rw [if_neg he]
          exact he

/-- Witness for C1: the idempotence consequence applied to two concrete
records sharing equipment_id EQ-1. -/
theorem upsert_equipment_protocol_witness :
    upsert_equipment ("D2")
        (upsert_equipment ("D1") []
          ({ equipment_id := "EQ-1", name := "装置A" } : EquipmentRecord)).1
        ({ equipment_id := "EQ-1", name := "装置B", fee_note := "有料" } : EquipmentRecord)
      = ([{ id := "D1", data := mergeData (({ equipment_id := "EQ-1", name := "装置A" } : EquipmentRecord).to_firestore) (({ equipment_id := "EQ-1", name := "装置B", fee_note := "有料" } : EquipmentRecord).to_firestore) }], "D1", "updated")
    ∧ (upsert_equipment ("D1") []
        ({ equipment_id := "EQ-1", name := "装置A" } : EquipmentRecord)).2.2 = "created" :=
  upsert_equipment_protocol.2.2.2
    ({ equipment_id := "EQ-1", name := "装置A" } : EquipmentRecord)
    ({ equipment_id := "EQ-1", name := "装置B", fee_note := "有料" } : EquipmentRecord)
    ("D1") ("D2") rfl (by decide)

/-- Witness for C10: a created document for a record without equipment_id
adopts the store-assigned id. -/
theorem upsert_equipment_created_nonempty_id_witness :
    (upsert_equipment ("AUTO1") [] ({ name := "顕微鏡" } : EquipmentRecord)).1
        = [] ++ [{ id := "AUTO1", data := createdData ("AUTO1") ({ name := "顕微鏡" } : EquipmentRecord) }]
    ∧ getField (createdData ("AUTO1") ({ name := "顕微鏡" } : EquipmentRecord))
        ("equipment_id")
        = some (FsValue.s (if ({ name := "顕微鏡" } : EquipmentRecord).equipment_id = ""
            then "AUTO1" else ({ name := "顕微鏡" } : EquipmentRecord).equipment_id))
    ∧ ¬ (if ({ name := "顕微鏡" } : EquipmentRecord).equipment_id = ""
          then "AUTO1" else ({ name := "顕微鏡" } : EquipmentRecord).equipment_id) = "" :=
  upsert_equipment_created_nonempty_id ("AUTO1") [] ({ name := "顕微鏡" } : EquipmentRecord) (by decide) rfl

/-! ## Batch runner retry loop (backfill.py) -/

/-- The google.api_core exception classes is_retryable_stream_error tests
with isinstance, plus a catch-all for every other exception. -/
inductive GcloudExcKind where
  | serviceUnavailable
  | deadlineExceeded
  | internalServerError
  | retryError
  | other
deriving DecidableEq, Repr

/-- An exception as the retry classifier sees it: its class and its str()
rendering. -/
structure StreamExc where
  kind : GcloudExcKind
  message : String
deriving DecidableEq, Repr

/-- The keyword list of is_retryable_stream_error. -/
def RETRY_KEYWORDS : List String :=
  ["dns resolution failed", "could not contact dns servers", "statuscode.unavailable",
   "deadline exceeded", "timed out", "temporarily unavailable"]

/-- is_retryable_stream_error from backfill.py: the four retryable exception
classes, else a lowercase substring match over the keyword list. -/
def is_retryable_stream_error (exc : StreamExc) : Bool :=
  (exc.kind == GcloudExcKind.serviceUnavailable)
    || (exc.kind == GcloudExcKind.deadlineExceeded)
    || (exc.kind == GcloudExcKind.internalServerError)
    || (exc.kind == GcloudExcKind.retryError)
    || RETRY_KEYWORDS.any (fun key => containsSub key.data (pyLower exc.message.data))

/-- The per-page retry loop of iter_collection_docs: `outcome n` is what the
stream call raises or returns on (0-based) attempt n, `remaining` counts the
retries still allowed (max_retries at the start); returns the backoff sleeps
performed and either the page with its final attempt index or the re-raised
exception. -/
def fetchPageGo {D : Type} (outcome : Nat → Except StreamExc D) :
    Nat → Nat → List Nat × Except StreamExc (D × Nat)
  | attempt, remaining =>
    match outcome attempt with
    | Except.ok docs => ([], Except.ok (docs, attempt))
    | Except.error e =>
      if is_retryable_stream_error e then
        match remaining with
        | Nat.succ rem =>
          let sleep := min (2 ^ attempt) 30
          let r := fetchPageGo outcome (attempt + 1) rem
          (sleep :: r.1, r.2)
        | 0 => ([], Except.error e)
      else ([], Except.error e)

/-- One page fetch of iter_collection_docs with its retry budget. -/
def iter_page_with_retry {D : Type} (outcome : Nat → Except StreamExc D)
    (max_retries : Nat) : List Nat × Except StreamExc (D × Nat) :=
  fetchPageGo outcome 0 max_retries

/-- C8: a stream error classified transient (the four retryable exception
classes or a DNS/timeout keyword in the lowercased message) is retried with
exponential backoff min(2^attempt, 30) while retries remain; a non-transient
error or retry exhaustion re-raises and aborts; a transient failure on the
first attempt followed by success on the second yields exactly one retry
(one backoff sleep) and the fetch completes. -/
theorem retry_loop_policy :
    (is_retryable_stream_error { kind := GcloudExcKind.serviceUnavailable, message := "" } = true
      ∧ is_retryable_stream_error { kind := GcloudExcKind.deadlineExceeded, message := "" } = true
      ∧ is_retryable_stream_error { kind := GcloudExcKind.internalServerError, message := "" } = true
      ∧ is_retryable_stream_error { kind := GcloudExcKind.retryError, message := "" } = true
      ∧ is_retryable_stream_error { kind := GcloudExcKind.other, message := "DNS resolution failed for eqnet.jp" } = true
      ∧ is_retryable_stream_error { kind := GcloudExcKind.other, message := "Read timed out" } = true
      ∧ is_retryable_stream_error { kind := GcloudExcKind.other, message := "permission denied" } = false)
    ∧ (∀ (D : Type) (outcome : Nat → Except StreamExc D) (attempt remaining : Nat)
        (e : StreamExc),
        outcome attempt = Except.error e → is_retryable_stream_error e = false →
        fetchPageGo outcome attempt remaining = ([], Except.error e))
    ∧ (∀ (D : Type) (outcome : Nat → Except StreamExc D) (attempt : Nat) (e : StreamExc),
        outcome attempt = Except.error e → is_retryable_stream_error e = true →
        fetchPageGo outcome attempt 0 = ([], Except.error e))
    ∧ (∀ (D : Type) (outcome : Nat → Except StreamExc D) (attempt rem : Nat)
        (e : StreamExc) (d : D),
        outcome attempt = Except.error e → is_retryable_stream_error e = true →
        outcome (attempt + 1) = Except.ok d →
        fetchPageGo outcome attempt (rem + 1)
          = ([min (2 ^ attempt) 30], Except.ok (d, attempt + 1)))
    ∧ (∀ (D : Type) (outcome : Nat → Except StreamExc D) (max_retries : Nat)
        (e : StreamExc) (d : D),
        outcome 0 = Except.error e → is_retryable_stream_error e = true →
        outcome 1 = Except.ok d → 1 ≤ max_retries →
        iter_page_with_retry outcome max_retries = ([1], Except.ok (d, 1))) := by
  refine ⟨by decide, ?_, ?_, ?_, ?_⟩
  · intro D outcome attempt remaining e hout hnr
    rw [fetchPageGo, hout]
    simp [hnr]
  · intro D outcome attempt e hout hr
    rw [fetchPageGo, hout]
    simp [hr]
  · intro D outcome attempt rem e d hout hr hok
    rw [fetchPageGo, hout]
    simp only [hr, if_true]
    rw [fetchPageGo, hok]
  · intro D outcome max_retries e d h0 hr h1 hmax
    obtain ⟨rem, hrem⟩ : ∃ rem, max_retries = rem + 1 :=
      ⟨max_retries - 1, by omega⟩
    subst hrem
    unfold iter_page_with_retry
    rw [fetchPageGo, h0]
    simp only [hr, if_true]
    rw [fetchPageGo, h1]
    norm_num

/-- Witness for C8: one transient 503 on the first attempt, success on the
second, against the default retry budget of 8. -/
theorem retry_loop_policy_witness :
    iter_page_with_retry
        (fun n => if n = 0
          then (Except.error { kind := GcloudExcKind.serviceUnavailable, message := "503 Service Unavailable" } : Except StreamExc (List String))
          else Except.ok ["doc"]) 8
      = ([1], Except.ok (["doc"], 1)) :=
  retry_loop_policy.2.2.2.2 (List String)
    (fun n => if n = 0
      then (Except.error { kind := GcloudExcKind.serviceUnavailable, message := "503 Service Unavailable" } : Except StreamExc (List String))
      else Except.ok ["doc"])
    8 ({ kind := GcloudExcKind.serviceUnavailable, message := "503 Service Unavailable" })
    (["doc"]) rfl (by decide) rfl (by decide)

end Kikidoko
